import Mathlib

/-
Verification of the go-kart race simulation core (src/src/components/RaceTrack.tsx,
second GoCart variant, lines ~957-1362).

Embedding conventions:
* Coordinates, velocities, timers and angles are rational numbers (`ℚ`), standing in
  for the engine's float64 values; all arithmetic the code performs on them
  (+, -, *, min, max, abs, comparisons) is translated literally.
* Every `Math.sqrt` in the source occurs only inside a comparison
  (`Math.sqrt d2 < r`, `Math.sqrt d2 <= r`, `Math.sqrt d2 < best`).  Since the real
  square root is strictly monotone on nonnegative inputs, each such comparison is
  translated to the equivalent comparison of the squared quantities
  (`d2 < r^2`, etc.); the translation is exact, not an approximation.
* The transcendental functions whose *values* are used (Math.sin, Math.cos,
  Math.atan2, and the Math.sqrt inside THREE.Vector3.normalize) cannot be computed
  exactly on ℚ; they are abstracted as a parameter record `MathI`.  All theorems
  about the frame update hold for every interpretation of these functions;
  witnesses instantiate them with concrete computable functions.
* `Math.PI` is translated as the exact rational value of the float64 constant.
* React `useState` setters are translated to functional record updates; within one
  frame the source reads state through the closure, so a value written with a
  setter during the frame is *not* visible to later reads in the same frame.
  Where this matters (the AI advancing `currentTrackIndex`, lap accounting reading
  `currentTrackIndex`) the translation reproduces the stale-read behaviour.
-/

/- 3D point, mirroring THREE.Vector3 as used by the simulation code. -/
structure V3 where
  x : ℚ
  y : ℚ
  z : ℚ
  deriving DecidableEq, Repr

/- Default value standing in for out-of-range JS array access; the simulation only
indexes `trackPoints` at positions reduced mod the length, so on a nonempty track
the default is never produced. -/
def v3zero : V3 := ⟨0, 0, 0⟩

/- Squared horizontal distance from point (px, pz) to query point (x, z); the
source computes `Math.sqrt((point.x - x) ** 2 + (point.z - z) ** 2)` and only ever
compares the result, so the square is the faithful decidable translation. -/
def d2xz (px pz x z : ℚ) : ℚ := (px - x) ^ 2 + (pz - z) ^ 2

/- Control intent record (interface Keys / the AI controls object). -/
structure Controls where
  forward : Bool
  backward : Bool
  left : Bool
  right : Bool
  deriving DecidableEq, Repr

def noControls : Controls := ⟨false, false, false, false⟩

/- AI driving style ('aggressive' | 'normal' | 'cautious'). -/
inductive AIStyle where
  | aggressive
  | normal
  | cautious
  deriving DecidableEq, Repr

/- Abstracted transcendental primitives (Math.sin, Math.cos, Math.atan2 and the
square root used inside THREE.Vector3.normalize).  The simulation theorems hold
for every interpretation; witnesses pick concrete computable ones. -/
structure MathI where
  sqrt : ℚ → ℚ
  sin : ℚ → ℚ
  cos : ℚ → ℚ
  atan2 : ℚ → ℚ → ℚ

/- The exact rational value of the float64 constant Math.PI
(3.141592653589793 = 884279719003555 / 2^48). -/
def mathPI : ℚ := 884279719003555 / 281474976710656

/- Per-cart immutable configuration (component props). -/
structure CartCfg where
  cartId : String
  isPlayer : Bool
  aiStyle : AIStyle
  startPosition : V3
  deriving DecidableEq, Repr

/- Per-cart mutable state: the useState hooks of the GoCart component. -/
structure CartState where
  position : V3
  rotation : ℚ
  velocity : ℚ
  angularVelocity : ℚ
  currentTrackIndex : ℕ
  isPaused : Bool
  pauseTimeLeft : ℚ
  hitPoints : ℤ
  isStunned : Bool
  stunTimeLeft : ℚ
  laps : ℕ
  wallHits : ℕ
  cartHits : ℕ
  lastCheckpoint : ℤ
  deriving DecidableEq, Repr

/- Initial cart state (the useState initializers). -/
def initialCart (cfg : CartCfg) : CartState where
  position := cfg.startPosition
  rotation := mathPI / 2
  velocity := 0
  angularVelocity := 0
  currentTrackIndex := 0
  isPaused := false
  pauseTimeLeft := 0
  hitPoints := 10
  isStunned := false
  stunTimeLeft := 0
  laps := 0
  wallHits := 0
  cartHits := 0
  lastCheckpoint := -1

/- Physics constants from the useFrame body. -/
def maxSpeed : ℚ := 0.4
def acceleration : ℚ := 0.8
def deceleration : ℚ := 1.2
def friction : ℚ := 0.96
def maxTurnSpeed : ℚ := 0.08
def turnAcceleration : ℚ := 0.15
def turnFriction : ℚ := 0.9

/- Longitudinal velocity update of one frame (useFrame lines 1265-1280): the
acceleration / braking / natural-deceleration branch followed by the unconditional
multiplicative friction. -/
def stepVelocity (c : Controls) (delta v : ℚ) : ℚ :=
  (if c.forward then min maxSpeed (v + acceleration * delta)
   else if c.backward then max (-maxSpeed * 0.6) (v - deceleration * delta)
   else if 0 < v then max 0 (v - deceleration * delta)
   else min 0 (v + deceleration * delta)) * friction

/- Angular velocity update of one frame (useFrame lines 1286-1293). -/
def stepAngular (c : Controls) (effectiveTurnSpeed delta a : ℚ) : ℚ :=
  if c.left then min effectiveTurnSpeed (a + turnAcceleration * delta)
  else if c.right then max (-effectiveTurnSpeed) (a - turnAcceleration * delta)
  else a * turnFriction

/- Collision radius of checkCartCollisions. -/
def collisionRadius : ℚ := 1.5

/- checkCartCollisions (lines 1140-1159).  The shared position map is modelled as
an association list in iteration order.  The boolean result is the return value;
the `Option String` result records the single `onCartCollision(otherId)` signal
emitted just before the early `return true` (none when no collision is found). -/
def checkCartCollisions (cartId : String) (newPos : V3) :
    List (String × V3) → Bool × Option String
  | [] => (false, none)
  | (otherId, otherPos) :: rest =>
    if otherId ≠ cartId then
      if d2xz newPos.x newPos.z otherPos.x otherPos.z < collisionRadius ^ 2 then
        (true, some otherId)
      else checkCartCollisions cartId newPos rest
    else checkCartCollisions cartId newPos rest

/- The per-entry hit test of checkCartCollisions, as a boolean predicate. -/
def cartHitPred (cartId : String) (newPos : V3) (e : String × V3) : Bool :=
  e.1 != cartId && decide (d2xz newPos.x newPos.z e.2.x e.2.z < collisionRadius ^ 2)

/- resetToStart (lines 1107-1122). -/
def resetToStart (cfg : CartCfg) (s : CartState) : CartState :=
  { s with
    position := cfg.startPosition
    rotation := mathPI / 2
    velocity := 0
    angularVelocity := 0
    currentTrackIndex := 0
    hitPoints := 10
    isPaused := false
    pauseTimeLeft := 0
    isStunned := false
    stunTimeLeft := 0
    lastCheckpoint := -1 }

/- takeDamage (lines 1124-1138).  The stun / velocity / cartHits writes happen
unconditionally; when the decremented health reaches 0 resetToStart runs last and
overrides the overlapping fields (React: the latest setter write wins). -/
def takeDamage (cfg : CartCfg) (s : CartState) : CartState :=
  let newHitPoints := s.hitPoints - 1
  let s1 := { s with
    hitPoints := newHitPoints
    isStunned := true
    stunTimeLeft := 0.1
    velocity := 0
    angularVelocity := 0
    cartHits := s.cartHits + 1 }
  if newHitPoints ≤ 0 then resetToStart cfg s1 else s1

/- Checkpoint index of a centerline index: Math.floor(currentTrackIndex /
(trackPoints.length / 4)); the inner division is float division in the source,
hence ℚ division here. -/
def checkpointOf (n idx : ℕ) : ℤ := ⌊(idx : ℚ) / ((n : ℚ) / 4)⌋

/- The checkpoint-transition / lap-counting step (useFrame lines 1350-1356),
acting on (laps, lastCheckpoint) for an observed checkpoint value. -/
def checkpointStep (cp last : ℤ) (laps : ℕ) : ℕ × ℤ :=
  if cp ≠ last then
    ((if cp = 0 ∧ last = 3 then laps + 1 else laps), cp)
  else (laps, last)

/- Lap accounting of one frame (useFrame lines 1346-1356). -/
def lapStep (n idx : ℕ) (laps : ℕ) (last : ℤ) : ℕ × ℤ :=
  checkpointStep (checkpointOf n idx) last laps

/- Folding the transition step over an observed sequence of checkpoint values. -/
def observeCheckpoints (cps : List ℤ) (laps : ℕ) (last : ℤ) : ℕ × ℤ :=
  cps.foldl (fun st cp => checkpointStep cp st.2 st.1) (laps, last)

/- Number of iterations performed by the first normalization loop
(`while (angleDiff > Math.PI) angleDiff -= 2 * Math.PI`). -/
def wrapDownSteps (x : ℚ) : ℕ := (⌈(x - mathPI) / (2 * mathPI)⌉).toNat

def wrapDownAux : ℕ → ℚ → ℚ
  | 0, x => x
  | n + 1, x => if mathPI < x then wrapDownAux n (x - 2 * mathPI) else x

/- First while loop of the AI angle normalization (line 1189), with its exact
iteration count supplied as structural fuel so the definition computes. -/
def wrapDown (x : ℚ) : ℚ := wrapDownAux (wrapDownSteps x) x

/- Number of iterations performed by the second normalization loop
(`while (angleDiff < -Math.PI) angleDiff += 2 * Math.PI`). -/
def wrapUpSteps (x : ℚ) : ℕ := (⌈(-mathPI - x) / (2 * mathPI)⌉).toNat

def wrapUpAux : ℕ → ℚ → ℚ
  | 0, x => x
  | n + 1, x => if x < -mathPI then wrapUpAux n (x + 2 * mathPI) else x

/- Second while loop of the AI angle normalization (line 1190). -/
def wrapUp (x : ℚ) : ℚ := wrapUpAux (wrapUpSteps x) x

/- The complete AI angle-difference normalization (lines 1188-1190): the
subtracting loop runs to exhaustion first, then the adding loop. -/
def normalizeAngle (x : ℚ) : ℚ := wrapUp (wrapDown x)

/- The running "closest so far" distance of the nearest-point loops; `none` is the
`Infinity` initializer, and `ltOpt d best` is the loop test `distance <
closestDistance` (on squared distances). -/
def ltOpt (d : ℚ) : Option ℚ → Bool
  | none => true
  | some c => decide (d < c)

/- The scan loop shared by isPositionValid and resetToTrackCenter (find closest
centerline index and point): iterates over the remaining points with the running
index `i`, current best distance `best`, best index `bi` and best point `bp`. -/
def closestPointScan (x z : ℚ) : List V3 → ℕ → Option ℚ → ℕ → V3 → ℕ × V3
  | [], _, _, bi, bp => (bi, bp)
  | p :: rest, i, best, bi, bp =>
    if ltOpt (d2xz p.x p.z x z) best then
      closestPointScan x z rest (i + 1) (some (d2xz p.x p.z x z)) i p
    else
      closestPointScan x z rest (i + 1) best bi bp

/- Find the nearest centerline index and point to (x, z), with the source's
initializers closestIndex = 0, closestTrackPoint = trackPoints[0],
closestDistance = Infinity (lines 1031-1044 and 1068-1081). -/
def closestIdxPt (tp : List V3) (x z : ℚ) : ℕ × V3 :=
  closestPointScan x z tp 0 none 0 (tp.headD v3zero)

/- The height-tracking variant of the same loop, for getTrackHeightAt. -/
def heightScan (x z : ℚ) : List V3 → Option ℚ → ℚ → ℚ
  | [], _, bh => bh
  | p :: rest, best, bh =>
    if ltOpt (d2xz p.x p.z x z) best then heightScan x z rest (some (d2xz p.x p.z x z)) p.y
    else heightScan x z rest best bh

/- getTrackHeightAt (lines 986-1000): elevation of the nearest centerline point,
0 when the track is empty (the closestHeight initializer). -/
def getTrackHeightAt (tp : List V3) (x z : ℚ) : ℚ := heightScan x z tp none 0

/- THREE.Vector3.normalize: divides by (length || 1), so the zero vector is
returned unchanged.  The square root is the abstract one of `M`. -/
def normalize3 (M : MathI) (v : V3) : V3 :=
  let len := M.sqrt (v.x ^ 2 + v.y ^ 2 + v.z ^ 2)
  let d := if len = 0 then 1 else len
  ⟨v.x / d, v.y / d, v.z / d⟩

/- isPositionValid (lines 1027-1065).  The three distance comparisons against
maxDistanceFromCenter and cartRadius are the squared forms of the source's
sqrt comparisons (exact translation, see the header note). -/
def isPositionValid (M : MathI) (tp : List V3) (x z : ℚ) : Bool :=
  let cartRadius : ℚ := 0.8
  let trackWidth : ℚ := 12
  let c := closestIdxPt tp x z
  let closestTrackPoint := c.2
  let nextPoint := tp.getD ((c.1 + 1) % tp.length) v3zero
  let direction := normalize3 M ⟨nextPoint.x - closestTrackPoint.x,
    nextPoint.y - closestTrackPoint.y, nextPoint.z - closestTrackPoint.z⟩
  let perpendicular : V3 := ⟨-direction.z, 0, direction.x⟩
  let innerPoint : V3 := ⟨closestTrackPoint.x + perpendicular.x * (-(trackWidth / 2)),
    closestTrackPoint.y + perpendicular.y * (-(trackWidth / 2)),
    closestTrackPoint.z + perpendicular.z * (-(trackWidth / 2))⟩
  let outerPoint : V3 := ⟨closestTrackPoint.x + perpendicular.x * (trackWidth / 2),
    closestTrackPoint.y + perpendicular.y * (trackWidth / 2),
    closestTrackPoint.z + perpendicular.z * (trackWidth / 2)⟩
  let distanceFromCenter2 := d2xz closestTrackPoint.x closestTrackPoint.z x z
  let maxDistanceFromCenter : ℚ := trackWidth / 2 - cartRadius
  let distToInner2 := d2xz innerPoint.x innerPoint.z x z
  let distToOuter2 := d2xz outerPoint.x outerPoint.z x z
  decide (distanceFromCenter2 ≤ maxDistanceFromCenter ^ 2) &&
    decide (cartRadius ^ 2 < distToInner2) && decide (cartRadius ^ 2 < distToOuter2)

/- resetToTrackCenter (lines 1067-1105): snap to the nearest centerline point
(computed from the cart's current, pre-collision position), face the next
centerline point, freeze for 3 seconds, count a wall hit. -/
def resetToTrackCenter (M : MathI) (tp : List V3) (s : CartState) : CartState :=
  let c := closestIdxPt tp s.position.x s.position.z
  let closestTrackPoint := c.2
  let trackHeight := getTrackHeightAt tp closestTrackPoint.x closestTrackPoint.z
  let nextPoint := tp.getD ((c.1 + 1) % tp.length) v3zero
  { s with
    position := ⟨closestTrackPoint.x, trackHeight + 0.5, closestTrackPoint.z⟩
    rotation := M.atan2 (nextPoint.x - closestTrackPoint.x) (nextPoint.z - closestTrackPoint.z)
    velocity := 0
    angularVelocity := 0
    currentTrackIndex := c.1
    isPaused := true
    pauseTimeLeft := 3.0
    wallHits := s.wallHits + 1 }

/- AI style parameters (lines 1165, 1193, 1194). -/
def lookaheadOf : AIStyle → ℕ
  | .aggressive => 8
  | .cautious => 12
  | .normal => 10

def speedTargetOf : AIStyle → ℚ
  | .aggressive => 0.35
  | .cautious => 0.25
  | .normal => 0.3

def turnThresholdOf : AIStyle → ℚ
  | .aggressive => 0.1
  | .cautious => 0.05
  | .normal => 0.08

/- getAIControls (lines 1161-1207).  Returns the controls, the (possibly
advanced) value written to currentTrackIndex, and — as a specification-only ghost
output — the target point actually used for steering (none in the player branch,
which returns before any target is computed).  Note: in the distance < 3 branch
the source calls setCurrentTrackIndex((currentTrackIndex + 1) % length) and then
reads `currentTrackIndex` again to build the target index; the React setter does
not change the closure variable, so that read still yields the old index, making
the target expression identical in both branches. -/
def getAIControls (M : MathI) (tp : List V3) (cfg : CartCfg) (s : CartState) :
    Controls × ℕ × Option V3 :=
  if cfg.isPlayer then (noControls, s.currentTrackIndex, none)
  else
    let lookaheadDistance := lookaheadOf cfg.aiStyle
    let targetPoint0 := tp.getD s.currentTrackIndex v3zero
    let distanceToTarget2 := d2xz targetPoint0.x targetPoint0.z s.position.x s.position.z
    let r :=
      if distanceToTarget2 < 3 ^ 2 then
        ((s.currentTrackIndex + 1) % tp.length,
         tp.getD ((s.currentTrackIndex + lookaheadDistance / 3) % tp.length) v3zero)
      else
        (s.currentTrackIndex,
         tp.getD ((s.currentTrackIndex + lookaheadDistance / 3) % tp.length) v3zero)
    let targetPoint := r.2
    let targetDirection := M.atan2 (targetPoint.x - s.position.x) (targetPoint.z - s.position.z)
    let angleDiff := normalizeAngle (targetDirection - s.rotation)
    let speedTarget := speedTargetOf cfg.aiStyle
    let turnThreshold := turnThresholdOf cfg.aiStyle
    (⟨decide (s.velocity < speedTarget), false,
      decide (turnThreshold < angleDiff), decide (angleDiff < -turnThreshold)⟩,
     r.1, some r.2)

/- Controls consumed by the frame: player keys or the AI decision (line 1263). -/
def frameControls (M : MathI) (tp : List V3) (cfg : CartCfg) (keys : Controls)
    (s : CartState) : Controls :=
  if cfg.isPlayer then keys else (getAIControls M tp cfg s).1

/- Value of currentTrackIndex after the control phase: unchanged for the player,
possibly advanced by the AI target logic. -/
def frameIndex (M : MathI) (tp : List V3) (cfg : CartCfg) (s : CartState) : ℕ :=
  if cfg.isPlayer then s.currentTrackIndex else (getAIControls M tp cfg s).2.1

/- newVelocity of the frame (lines 1265-1280). -/
def frameVelocity (M : MathI) (tp : List V3) (cfg : CartCfg) (keys : Controls)
    (delta : ℚ) (s : CartState) : ℚ :=
  stepVelocity (frameControls M tp cfg keys s) delta s.velocity

/- newAngularVelocity of the frame (lines 1282-1293); the effective turn speed is
maxTurnSpeed * |newVelocity| / maxSpeed. -/
def frameAngular (M : MathI) (tp : List V3) (cfg : CartCfg) (keys : Controls)
    (delta : ℚ) (s : CartState) : ℚ :=
  stepAngular (frameControls M tp cfg keys s)
    (maxTurnSpeed * (|frameVelocity M tp cfg keys delta s| / maxSpeed)) delta
    s.angularVelocity

/- newRotation of the frame (line 1296). -/
def frameRotation (M : MathI) (tp : List V3) (cfg : CartCfg) (keys : Controls)
    (delta : ℚ) (s : CartState) : ℚ :=
  s.rotation + frameAngular M tp cfg keys delta s

/- tentativePosition.x of the frame (line 1300). -/
def frameTentativeX (M : MathI) (tp : List V3) (cfg : CartCfg) (keys : Controls)
    (delta : ℚ) (s : CartState) : ℚ :=
  s.position.x + M.sin (frameRotation M tp cfg keys delta s) * frameVelocity M tp cfg keys delta s

/- tentativePosition.z of the frame (line 1301). -/
def frameTentativeZ (M : MathI) (tp : List V3) (cfg : CartCfg) (keys : Controls)
    (delta : ℚ) (s : CartState) : ℚ :=
  s.position.z + M.cos (frameRotation M tp cfg keys delta s) * frameVelocity M tp cfg keys delta s

/- Result of one frame: the new cart state, the (id, position) entry written into
the shared position map (none when the frame ended in pause/stun/wall-reset), and
the id passed to onCartCollision when a cart collision was signalled. -/
structure FrameResult where
  state : CartState
  published : Option (String × V3)
  damaged : Option String
  deriving DecidableEq, Repr

/- The useFrame body (lines 1209-1362) for one cart and one frame of length
`delta`: pause countdown, stun countdown, velocity / turning integration,
tentative move, wall check (resetToTrackCenter and early return), cart-collision
check (discard tentative position), elevation snap, position publication and lap
accounting.  Rendering-only work (group pose, slope/roll, stats callback) has no
state effect and is not modelled.  For AI carts the advanced track index is
written to the state, but — matching React's deferred setters — the lap
accounting still reads the frame-initial `currentTrackIndex`. -/
def updateCart (M : MathI) (tp : List V3) (cfg : CartCfg) (keys : Controls)
    (posMap : List (String × V3)) (delta : ℚ) (s : CartState) : FrameResult :=
  if s.isPaused then
    let newTime := max 0 (s.pauseTimeLeft - delta)
    { state := { s with pauseTimeLeft := newTime, isPaused := !(newTime ≤ 0) }
      published := none, damaged := none }
  else if s.isStunned then
    let newTime := max 0 (s.stunTimeLeft - delta)
    { state := { s with stunTimeLeft := newTime, isStunned := !(newTime ≤ 0) }
      published := none, damaged := none }
  else
    let newVelocity := frameVelocity M tp cfg keys delta s
    let newAngularVelocity := frameAngular M tp cfg keys delta s
    let newRotation := frameRotation M tp cfg keys delta s
    let tx := frameTentativeX M tp cfg keys delta s
    let tz := frameTentativeZ M tp cfg keys delta s
    if isPositionValid M tp tx tz = false then
      { state := resetToTrackCenter M tp s, published := none, damaged := none }
    else
      let hit := checkCartCollisions cfg.cartId ⟨tx, s.position.y, tz⟩ posMap
      let fx := if hit.1 then s.position.x else tx
      let fz := if hit.1 then s.position.z else tz
      let trackHeight := getTrackHeightAt tp fx fz
      let finalPos : V3 := ⟨fx, trackHeight + 0.5, fz⟩
      let lp := lapStep tp.length s.currentTrackIndex s.laps s.lastCheckpoint
      { state := { s with
          position := finalPos
          rotation := newRotation
          velocity := newVelocity
          angularVelocity := newAngularVelocity
          currentTrackIndex := frameIndex M tp cfg s
          laps := lp.1
          lastCheckpoint := lp.2 }
        published := some (cfg.cartId, finalPos)
        damaged := hit.2 }

/- ===== helper lemmas and witness fixtures ===== -/

/- Computable interpretation of the abstract math primitives used by witnesses:
the exact rational square root (exact on the perfect squares arising on the
witness tracks below) and zero stubs for sin / cos / atan2. -/
def M0 : MathI := ⟨Rat.sqrt, fun _ => 0, fun _ => 0, fun _ _ => 0⟩

/- A flat square witness track with rational segment lengths. -/
def tpSq : List V3 := [⟨0, 0, 0⟩, ⟨20, 0, 0⟩, ⟨20, 0, 20⟩, ⟨0, 0, 20⟩]

/- A five-point witness track with pairwise distinct points. -/
def tp5 : List V3 := [⟨0, 0, 0⟩, ⟨10, 0, 0⟩, ⟨20, 0, 0⟩, ⟨30, 0, 0⟩, ⟨40, 0, 0⟩]

/- Witness player cart configuration. -/
def cfgP : CartCfg := ⟨"p1", true, AIStyle.normal, ⟨0, 1/2, 0⟩⟩

/- Witness AI cart configuration. -/
def cfgA : CartCfg := ⟨"ai1", false, AIStyle.normal, ⟨0, 0, 0⟩⟩

/-- C1: checkCartCollisions returns true iff some entry of the shared position
map with an id other than the caller lies at horizontal distance < 1.5
(squared form: squared distance < 1.5²) from the tentative position; the id
signalled for damage is exactly the first such entry in iteration order, so at
most one other cart is notified per call, and the entry for the caller itself is
never compared. -/
theorem checkCartCollisions_firstOther_spec (v : String) (p : V3)
    (m : List (String × V3)) :
    ((checkCartCollisions v p m).1 = true ↔
      ∃ e ∈ m, e.1 ≠ v ∧ d2xz p.x p.z e.2.x e.2.z < collisionRadius ^ 2) ∧
    (checkCartCollisions v p m).2 = (m.find? (cartHitPred v p)).map Prod.fst := by
  induction m with
  | nil => simp [checkCartCollisions]
  | cons e rest ih =>
    obtain ⟨oid, op⟩ := e
    by_cases hid : oid = v
    · subst hid
      simpa [checkCartCollisions, cartHitPred, List.find?] using ih
    · by_cases hd : d2xz p.x p.z op.x op.z < collisionRadius ^ 2
      · have hbne : (oid != v) = true := by simp [bne_iff_ne, hid]
        simp [checkCartCollisions, cartHitPred, List.find?, hid, hd, hbne]
      · have hbne : (oid != v) = true := by simp [bne_iff_ne, hid]
        simpa [checkCartCollisions, cartHitPred, List.find?, hid, hd, hbne] using ih

/-- C2: whenever the current checkpoint (floor(index / (N/4))) differs from the
recorded last checkpoint, the lap counter increments by exactly 1 on the 3 → 0
transition and by 0 on every other transition, and the last-checkpoint value is
updated to the current checkpoint; the observed checkpoint sequence 0,1,2,3,0
adds exactly one lap and 0,1,2,1,0 adds none. -/
theorem lapCounting_transition_spec (n idx laps : ℕ) (last : ℤ)
    (h : checkpointOf n idx ≠ last) :
    lapStep n idx laps last =
      ((if checkpointOf n idx = 0 ∧ last = 3 then laps + 1 else laps),
        checkpointOf n idx) ∧
    observeCheckpoints [0, 1, 2, 3, 0] laps (-1) = (laps + 1, 0) ∧
    observeCheckpoints [0, 1, 2, 1, 0] laps (-1) = (laps, 0) := by
  refine ⟨?_, ?_, ?_⟩
  · simp [lapStep, checkpointStep, h]
  · norm_num [observeCheckpoints, checkpointStep]
  · norm_num [observeCheckpoints, checkpointStep]

theorem lapCounting_transition_witness :
    lapStep 32 8 0 0 = (0, 1) := by
  have h : checkpointOf 32 8 = 1 := by
    norm_num [checkpointOf]
  have hne : checkpointOf 32 8 ≠ 0 := by rw [h]; decide
  rw [(lapCounting_transition_spec 32 8 0 0 hne).1, h]
  norm_num

theorem takeDamage_of_pos (cfg : CartCfg) (s : CartState) (h : 1 < s.hitPoints) :
    takeDamage cfg s =
      { s with
        hitPoints := s.hitPoints - 1
        isStunned := true
        stunTimeLeft := 0.1
        velocity := 0
        angularVelocity := 0
        cartHits := s.cartHits + 1 } := by
  have hc : ¬ s.hitPoints - 1 ≤ 0 := by omega
  simp [takeDamage, hc]

theorem takeDamage_of_one (cfg : CartCfg) (s : CartState) (h : s.hitPoints = 1) :
    takeDamage cfg s =
      { s with
        position := cfg.startPosition
        rotation := mathPI / 2
        velocity := 0
        angularVelocity := 0
        currentTrackIndex := 0
        hitPoints := 10
        isPaused := false
        pauseTimeLeft := 0
        isStunned := false
        stunTimeLeft := 0
        lastCheckpoint := -1
        cartHits := s.cartHits + 1 } := by
  have hc : s.hitPoints - 1 ≤ 0 := by omega
  simp [takeDamage, resetToStart, hc]

theorem takeDamage_iter_hitPoints (cfg : CartCfg) (s : CartState)
    (h : s.hitPoints = 10) :
    ∀ k, k ≤ 9 → ((takeDamage cfg)^[k] s).hitPoints = 10 - (k : ℤ) := by
  intro k
  induction k with
  | zero => simpa using h
  | succ k ih =>
    intro hk
    have hk9 : k ≤ 9 := by omega
    have hcur := ih hk9
    have hpos : 1 < ((takeDamage cfg)^[k] s).hitPoints := by
      rw [hcur]; omega
    rw [Function.iterate_succ_apply', takeDamage_of_pos cfg _ hpos]
    simp [hcur]
    ring

/-- C3: starting from a cart with health 10, each of the first 9 takeDamage
calls only decrements health by 1, stuns for 0.1 s, zeroes both velocities and
increments the cart-hit counter (no reset: all other fields are untouched),
while the 10th call — health reaching 0 — additionally performs resetToStart,
leaving health 10, the cart's fixed start position, heading π/2, zero
velocities, cleared pause and stun timers and last-checkpoint −1. -/
theorem takeDamage_ten_spec (cfg : CartCfg) (s : CartState)
    (h : s.hitPoints = 10) :
    (∀ k, k < 9 →
      (takeDamage cfg)^[k + 1] s =
        { (takeDamage cfg)^[k] s with
          hitPoints := ((takeDamage cfg)^[k] s).hitPoints - 1
          isStunned := true
          stunTimeLeft := 0.1
          velocity := 0
          angularVelocity := 0
          cartHits := ((takeDamage cfg)^[k] s).cartHits + 1 }) ∧
    ((takeDamage cfg)^[9] s).hitPoints = 1 ∧
    (takeDamage cfg)^[10] s =
      { (takeDamage cfg)^[9] s with
        position := cfg.startPosition
        rotation := mathPI / 2
        velocity := 0
        angularVelocity := 0
        currentTrackIndex := 0
        hitPoints := 10
        isPaused := false
        pauseTimeLeft := 0
        isStunned := false
        stunTimeLeft := 0
        lastCheckpoint := -1
        cartHits := ((takeDamage cfg)^[9] s).cartHits + 1 } := by
  have h9 : ((takeDamage cfg)^[9] s).hitPoints = 1 := by
    have := takeDamage_iter_hitPoints cfg s h 9 (by omega)
    omega
  refine ⟨?_, h9, ?_⟩
  · intro k hk
    have hpos : 1 < ((takeDamage cfg)^[k] s).hitPoints := by
      have := takeDamage_iter_hitPoints cfg s h k (by omega)
      omega
    rw [Function.iterate_succ_apply', takeDamage_of_pos cfg _ hpos]
  · rw [show (10 : ℕ) = 9 + 1 from rfl, Function.iterate_succ_apply',
      takeDamage_of_one cfg _ h9]

theorem takeDamage_ten_witness :
    ((takeDamage cfgP)^[10] (initialCart cfgP)).hitPoints = 10 := by
  rw [(takeDamage_ten_spec cfgP (initialCart cfgP) rfl).2.2]

/- The velocity sequence of the C7 scenario: at rest at frame 0, then one
stepVelocity per frame with forward = true and dt = 1/60 (the source applies the
capped acceleration and then the multiplicative friction each frame). -/
def velocitySeq : ℕ → ℚ
  | 0 => 0
  | n + 1 => stepVelocity ⟨true, false, false, false⟩ (1 / 60) (velocitySeq n)

theorem velocitySeq_closed_form (n : ℕ) :
    velocitySeq n = 8 / 25 * (1 - (24 / 25) ^ n) := by
  induction n with
  | zero => simp [velocitySeq]
  | succ n ih =>
    have hq : (0 : ℚ) < (24 / 25) ^ n := by positivity
    have hle : velocitySeq n + acceleration * (1 / 60) ≤ maxSpeed := by
      rw [ih]
      rw [acceleration, maxSpeed]
      nlinarith [hq]
    have hstep : velocitySeq (n + 1) =
        min maxSpeed (velocitySeq n + acceleration * (1 / 60)) * friction := by
      simp [velocitySeq, stepVelocity]
    rw [hstep, min_eq_right hle, ih]
    rw [acceleration, friction]
    ring

/-- C7 counterexample: after 60 forward frames at dt = 1/60 from rest, the
velocity produced by iterating the discrete accelerate-then-apply-friction step
is not min(maxSpeed, 0) = 0, refuting the claimed final value. -/
theorem forward_second_cex : velocitySeq 60 ≠ min maxSpeed 0 := by
  have hmin : min maxSpeed (0 : ℚ) = 0 := by
    rw [maxSpeed]; norm_num
  rw [hmin, velocitySeq_closed_form]
  have hlt : ((24 : ℚ) / 25) ^ 60 < 1 := by
    apply pow_lt_one₀ (by norm_num) (by norm_num) (by norm_num)
  intro h
  nlinarith [hlt]

/-- C7 (amended): a cart at rest given forward = true for exactly 60 frames at
dt = 1/60, iterating v ← min(0.4, v + 0.8·dt) then v ← v·0.96 each frame, ends
with velocity 8/25·(1 − (24/25)^60) ≈ 0.2915 — strictly positive and strictly
below maxSpeed (the 0.4 cap never engages) — not min(maxSpeed, 0) = 0. -/
theorem forward_second_value_spec :
    velocitySeq 60 = 8 / 25 * (1 - (24 / 25) ^ 60) ∧
    0 < velocitySeq 60 ∧ velocitySeq 60 < maxSpeed := by
  have h := velocitySeq_closed_form 60
  have hlt : ((24 : ℚ) / 25) ^ 60 < 1 := by
    apply pow_lt_one₀ (by norm_num) (by norm_num) (by norm_num)
  have hpos : (0 : ℚ) < (24 / 25) ^ 60 := by positivity
  refine ⟨h, ?_, ?_⟩
  · rw [h]; nlinarith [hlt]
  · rw [h, maxSpeed]; nlinarith [hpos]

/-- C9: in a non-paused, non-stunned frame with all four control flags false and
dt > 0, the natural-deceleration-plus-friction velocity update and the
turn-friction angular update each preserve the sign of the quantity (or send it
to 0) and never increase its magnitude; the angular velocity strictly shrinks in
magnitude when nonzero.  Neither quantity can overshoot zero and oscillate. -/
theorem coasting_sign_spec (delta v a eff : ℚ) (hdt : 0 < delta) :
    (0 ≤ v → 0 ≤ stepVelocity noControls delta v ∧ stepVelocity noControls delta v ≤ v) ∧
    (v ≤ 0 → stepVelocity noControls delta v ≤ 0 ∧ v ≤ stepVelocity noControls delta v) ∧
    (0 ≤ a → 0 ≤ stepAngular noControls eff delta a ∧ stepAngular noControls eff delta a ≤ a) ∧
    (a ≤ 0 → stepAngular noControls eff delta a ≤ 0 ∧ a ≤ stepAngular noControls eff delta a) ∧
    (a ≠ 0 → |stepAngular noControls eff delta a| < |a|) := by
  have hv2 : stepVelocity noControls delta v =
      (if 0 < v then max 0 (v - deceleration * delta)
       else min 0 (v + deceleration * delta)) * friction := by
    simp [stepVelocity, noControls]
  have ha2 : stepAngular noControls eff delta a = a * turnFriction := by
    simp [stepAngular, noControls]
  rw [hv2, ha2, deceleration, friction, turnFriction]
  refine ⟨?_, ?_, ?_, ?_, ?_⟩
  · intro hv
    by_cases h0 : 0 < v
    · rw [if_pos h0]
      rcases le_total 0 (v - 1.2 * delta) with hc | hc
      · rw [max_eq_right hc]; constructor <;> nlinarith
      · rw [max_eq_left hc]; constructor <;> nlinarith
    · rw [if_neg h0]
      have hv0 : v = 0 := le_antisymm (not_lt.mp h0) hv
      subst hv0
      rw [min_eq_left (by nlinarith)]
      norm_num
  · intro hv
    rw [if_neg (not_lt.mpr hv)]
    rcases le_total (v + 1.2 * delta) 0 with hc | hc
    · rw [min_eq_right hc]; constructor <;> nlinarith
    · rw [min_eq_left hc]; constructor <;> nlinarith
  · intro ha; constructor <;> nlinarith
  · intro ha; constructor <;> nlinarith
  · intro ha
    rw [abs_mul]
    have habs : |(0.9 : ℚ)| = 0.9 := by norm_num
    rw [habs]
    have hpos : 0 < |a| := abs_pos.mpr ha
    nlinarith [hpos]

theorem coasting_sign_witness :
    stepVelocity noControls 1 5 ≤ 5 ∧ 0 ≤ stepVelocity noControls 1 5 := by
  have h := (coasting_sign_spec 1 5 (-1) 0 (by norm_num)).1 (by norm_num)
  exact ⟨h.2, h.1⟩

theorem two_mathPI_pos : (0 : ℚ) < 2 * mathPI := by norm_num [mathPI]

theorem wrapDownAux_spec :
    ∀ n (x : ℚ), wrapDownSteps x ≤ n →
      wrapDownAux n x ≤ mathPI ∧ (wrapDownAux n x = x ∨ -mathPI < wrapDownAux n x) := by
  intro n
  induction n with
  | zero =>
    intro x hx
    have hc : ⌈(x - mathPI) / (2 * mathPI)⌉ ≤ 0 := Int.toNat_eq_zero.mp (Nat.le_zero.mp hx)
    have hdiv : (x - mathPI) / (2 * mathPI) ≤ 0 := by
      have := Int.ceil_le.mp (by exact_mod_cast hc)
      simpa using this
    have hxle : x ≤ mathPI := by
      by_contra hcon
      push_neg at hcon
      have : 0 < (x - mathPI) / (2 * mathPI) := div_pos (by linarith) two_mathPI_pos
      linarith
    have h0 : wrapDownAux 0 x = x := rfl
    rw [h0]
    exact ⟨hxle, Or.inl rfl⟩
  | succ n ih =>
    intro x hx
    by_cases hgt : mathPI < x
    · have hpos : 0 < (x - mathPI) / (2 * mathPI) := div_pos (by linarith) two_mathPI_pos
      have hone : 1 ≤ ⌈(x - mathPI) / (2 * mathPI)⌉ := Int.ceil_pos.mpr hpos
      have hshift : (x - 2 * mathPI - mathPI) / (2 * mathPI) =
          (x - mathPI) / (2 * mathPI) - 1 := by
        have hne : (2 * mathPI) ≠ 0 := ne_of_gt two_mathPI_pos
        field_simp
        ring
      have hsteps : wrapDownSteps (x - 2 * mathPI) = wrapDownSteps x - 1 := by
        rw [wrapDownSteps, wrapDownSteps, hshift, Int.ceil_sub_one]
        omega
      have hle : wrapDownSteps (x - 2 * mathPI) ≤ n := by
        have h1 : 1 ≤ wrapDownSteps x := by
          rw [wrapDownSteps]
          omega
        omega
      have hrec : wrapDownAux (n + 1) x = wrapDownAux n (x - 2 * mathPI) := by
        rw [wrapDownAux, if_pos hgt]
      obtain ⟨h1, h2⟩ := ih (x - 2 * mathPI) hle
      rw [hrec]
      refine ⟨h1, Or.inr ?_⟩
      rcases h2 with h2 | h2
      · rw [h2]
        linarith
      · exact h2
    · have h0 : wrapDownAux (n + 1) x = x := by rw [wrapDownAux, if_neg hgt]
      rw [h0]
      exact ⟨not_lt.mp hgt, Or.inl rfl⟩

theorem wrapUpAux_spec :
    ∀ n (x : ℚ), wrapUpSteps x ≤ n →
      -mathPI ≤ wrapUpAux n x ∧ (wrapUpAux n x = x ∨ wrapUpAux n x < mathPI) := by
  intro n
  induction n with
  | zero =>
    intro x hx
    have hc : ⌈(-mathPI - x) / (2 * mathPI)⌉ ≤ 0 := Int.toNat_eq_zero.mp (Nat.le_zero.mp hx)
    have hdiv : (-mathPI - x) / (2 * mathPI) ≤ 0 := by
      have := Int.ceil_le.mp (by exact_mod_cast hc)
      simpa using this
    have hxge : -mathPI ≤ x := by
      by_contra hcon
      push_neg at hcon
      have : 0 < (-mathPI - x) / (2 * mathPI) := div_pos (by linarith) two_mathPI_pos
      linarith
    have h0 : wrapUpAux 0 x = x := rfl
    rw [h0]
    exact ⟨hxge, Or.inl rfl⟩
  | succ n ih =>
    intro x hx
    by_cases hlt : x < -mathPI
    · have hpos : 0 < (-mathPI - x) / (2 * mathPI) := div_pos (by linarith) two_mathPI_pos
      have hone : 1 ≤ ⌈(-mathPI - x) / (2 * mathPI)⌉ := Int.ceil_pos.mpr hpos
      have hshift : (-mathPI - (x + 2 * mathPI)) / (2 * mathPI) =
          (-mathPI - x) / (2 * mathPI) - 1 := by
        have hne : (2 * mathPI) ≠ 0 := ne_of_gt two_mathPI_pos
        field_simp
        ring
      have hsteps : wrapUpSteps (x + 2 * mathPI) = wrapUpSteps x - 1 := by
        rw [wrapUpSteps, wrapUpSteps, hshift, Int.ceil_sub_one]
        omega
      have hle : wrapUpSteps (x + 2 * mathPI) ≤ n := by
        have h1 : 1 ≤ wrapUpSteps x := by
          rw [wrapUpSteps]
          omega
        omega
      have hrec : wrapUpAux (n + 1) x = wrapUpAux n (x + 2 * mathPI) := by
        rw [wrapUpAux, if_pos hlt]
      obtain ⟨h1, h2⟩ := ih (x + 2 * mathPI) hle
      rw [hrec]
      refine ⟨h1, Or.inr ?_⟩
      rcases h2 with h2 | h2
      · rw [h2]
        linarith
      · exact h2
    · have h0 : wrapUpAux (n + 1) x = x := by rw [wrapUpAux, if_neg hlt]
      rw [h0]
      exact ⟨not_lt.mp hlt, Or.inl rfl⟩

/-- C6 (amended): for every angle difference the two normalization loops
terminate (the functions are total, with their exact iteration counts as fuel)
and produce a value in the closed interval [−π, π]; the lower endpoint −π is
attained, so the claimed half-open interval (−π, π] is too strong. -/
theorem normalizeAngle_range_spec (x : ℚ) :
    -mathPI ≤ normalizeAngle x ∧ normalizeAngle x ≤ mathPI := by
  obtain ⟨hd1, hd2⟩ := wrapDownAux_spec (wrapDownSteps x) x le_rfl
  obtain ⟨hu1, hu2⟩ := wrapUpAux_spec (wrapUpSteps (wrapDown x)) (wrapDown x) le_rfl
  have hnorm : normalizeAngle x = wrapUpAux (wrapUpSteps (wrapDown x)) (wrapDown x) := rfl
  have hdown : wrapDown x = wrapDownAux (wrapDownSteps x) x := rfl
  rw [hnorm]
  refine ⟨hu1, ?_⟩
  rcases hu2 with h | h
  · rw [h, hdown]
    exact hd1
  · exact le_of_lt h

/-- C6 counterexample: for desired heading 0 and current heading π (difference
0 − π = −π) neither loop runs and the normalization returns exactly −π, which
lies outside the claimed half-open interval (−π, π]. -/
theorem normalizeAngle_claim_cex :
    normalizeAngle (0 - mathPI) = -mathPI ∧
    ¬(-mathPI < normalizeAngle (0 - mathPI) ∧ normalizeAngle (0 - mathPI) ≤ mathPI) := by
  have hx : (0 : ℚ) - mathPI = -mathPI := by ring
  have hne : (2 * mathPI) ≠ 0 := ne_of_gt two_mathPI_pos
  have hdsteps : wrapDownSteps (-mathPI) = 0 := by
    rw [wrapDownSteps]
    have h1 : (-mathPI - mathPI) / (2 * mathPI) = ((-1 : ℤ) : ℚ) := by
      push_cast
      field_simp
      ring
    rw [h1, Int.ceil_intCast]
    rfl
  have hd : wrapDown (-mathPI) = -mathPI := by
    rw [wrapDown, hdsteps]
    rfl
  have husteps : wrapUpSteps (-mathPI) = 0 := by
    rw [wrapUpSteps]
    have h1 : (-mathPI - -mathPI) / (2 * mathPI) = ((0 : ℤ) : ℚ) := by
      push_cast
      ring_nf
    rw [h1, Int.ceil_intCast]
    rfl
  have hval : normalizeAngle (0 - mathPI) = -mathPI := by
    rw [hx, normalizeAngle, hd, wrapUp, husteps]
    rfl
  refine ⟨hval, ?_⟩
  rw [hval]
  intro h
  exact lt_irrefl _ h.1

theorem closestPointScan_go (x z : ℚ) (orig : List V3) :
    ∀ (rest : List V3) (i bi : ℕ) (bp : V3),
      rest = List.drop i orig →
      bi < i →
      bi < orig.length →
      orig.getD bi v3zero = bp →
      (∀ j, j < i → d2xz bp.x bp.z x z ≤
        d2xz (orig.getD j v3zero).x (orig.getD j v3zero).z x z) →
      (∀ j, j < bi → d2xz bp.x bp.z x z <
        d2xz (orig.getD j v3zero).x (orig.getD j v3zero).z x z) →
      (closestPointScan x z rest i (some (d2xz bp.x bp.z x z)) bi bp).1 < orig.length ∧
      orig.getD (closestPointScan x z rest i (some (d2xz bp.x bp.z x z)) bi bp).1 v3zero =
        (closestPointScan x z rest i (some (d2xz bp.x bp.z x z)) bi bp).2 ∧
      (∀ j, j < orig.length →
        d2xz (closestPointScan x z rest i (some (d2xz bp.x bp.z x z)) bi bp).2.x
          (closestPointScan x z rest i (some (d2xz bp.x bp.z x z)) bi bp).2.z x z ≤
        d2xz (orig.getD j v3zero).x (orig.getD j v3zero).z x z) ∧
      (∀ j, j < (closestPointScan x z rest i (some (d2xz bp.x bp.z x z)) bi bp).1 →
        d2xz (closestPointScan x z rest i (some (d2xz bp.x bp.z x z)) bi bp).2.x
          (closestPointScan x z rest i (some (d2xz bp.x bp.z x z)) bi bp).2.z x z <
        d2xz (orig.getD j v3zero).x (orig.getD j v3zero).z x z) := by
  intro rest
  induction rest with
  | nil =>
    intro i bi bp hdrop hbilt hbilen hbp hmin hstrict
    have hlen : orig.length ≤ i := by
      have := List.drop_eq_nil_iff.mp hdrop.symm
      exact this
    refine ⟨by simpa [closestPointScan] using hbilen, ?_, ?_, ?_⟩
    · simp only [closestPointScan]
      exact hbp
    · intro j hj
      exact hmin j (lt_of_lt_of_le hj hlen)
    · intro j hj
      exact hstrict j (by simpa [closestPointScan] using hj)
  | cons p rest2 ih =>
    intro i bi bp hdrop hbilt hbilen hbp hmin hstrict
    have hi : orig[i]? = some p := by
      have h0 : (List.drop i orig)[0]? = some p := by rw [← hdrop]; simp
      rw [List.getElem?_drop] at h0
      simpa using h0
    have hilen : i < orig.length := by
      rcases List.getElem?_eq_some_iff.mp hi with ⟨h, _⟩
      exact h
    have higet : orig.getD i v3zero = p := by
      simp [List.getD_eq_getElem?_getD, hi]
    have hrest2 : rest2 = List.drop (i + 1) orig := by
      have := List.tail_drop orig i
      rw [← hdrop] at this
      simpa using this
    by_cases hlt : d2xz p.x p.z x z < d2xz bp.x bp.z x z
    · have hscan : closestPointScan x z (p :: rest2) i (some (d2xz bp.x bp.z x z)) bi bp =
          closestPointScan x z rest2 (i + 1) (some (d2xz p.x p.z x z)) i p := by
        rw [closestPointScan]
        simp [ltOpt, hlt]
      rw [hscan]
      apply ih (i + 1) i p hrest2 (by omega) hilen higet
      · intro j hj
        rcases Nat.lt_succ_iff_lt_or_eq.mp hj with hj | hj
        · exact le_of_lt (lt_of_lt_of_le hlt (hmin j hj))
        · subst hj
          rw [higet]
      · intro j hj
        exact lt_of_lt_of_le hlt (hmin j hj)
    · have hscan : closestPointScan x z (p :: rest2) i (some (d2xz bp.x bp.z x z)) bi bp =
          closestPointScan x z rest2 (i + 1) (some (d2xz bp.x bp.z x z)) bi bp := by
        rw [closestPointScan]
        simp [ltOpt, hlt]
      rw [hscan]
      apply ih (i + 1) bi bp hrest2 (by omega) hbilen hbp
      · intro j hj
        rcases Nat.lt_succ_iff_lt_or_eq.mp hj with hj | hj
        · exact hmin j hj
        · subst hj
          rw [higet]
          exact not_lt.mp hlt
      · exact hstrict

/- The nearest-centerline-point loop (with Infinity initializer, strict-<
update and initializers index 0 / trackPoints[0]) returns, on a nonempty track,
an in-range index bearing the point it returns, whose squared distance to the
query is minimal; every strictly smaller index is strictly farther, so ties are
broken by the lowest index. -/
theorem closestIdxPt_spec (tp : List V3) (x z : ℚ) (hne : tp ≠ []) :
    (closestIdxPt tp x z).1 < tp.length ∧
    tp.getD (closestIdxPt tp x z).1 v3zero = (closestIdxPt tp x z).2 ∧
    (∀ j, j < tp.length →
      d2xz (closestIdxPt tp x z).2.x (closestIdxPt tp x z).2.z x z ≤
      d2xz (tp.getD j v3zero).x (tp.getD j v3zero).z x z) ∧
    (∀ j, j < (closestIdxPt tp x z).1 →
      d2xz (closestIdxPt tp x z).2.x (closestIdxPt tp x z).2.z x z <
      d2xz (tp.getD j v3zero).x (tp.getD j v3zero).z x z) := by
  obtain ⟨p, rest, rfl⟩ := List.exists_cons_of_ne_nil hne
  have h1 : closestIdxPt (p :: rest) x z =
      closestPointScan x z rest 1 (some (d2xz p.x p.z x z)) 0 p := by
    rw [closestIdxPt]
    simp [closestPointScan, ltOpt]
  rw [h1]
  apply closestPointScan_go x z (p :: rest) rest 1 0 p rfl (by omega) (by simp) rfl
  · intro j hj
    interval_cases j
    simp
  · intro j hj
    omega

/- Witness cart state parked far off the square track (wall-violation input). -/
def sWall : CartState := { initialCart cfgP with position := ⟨1000, 1/2, 1000⟩ }

/- Witness shared position map holding one other cart 1 unit away from the
player start. -/
def posMapC5 : List (String × V3) := [("ai1", ⟨1, 0, 0⟩)]

/- Witness AI cart state (fresh cart of cfgA). -/
def sA : CartState := initialCart cfgA

/-- C4 (amended): when the tentative position fails the boundary check, the
frame performs exactly the wall-recovery policy: position snaps to the
centerline point nearest the pre-collision position (in-range index, minimal
squared distance, every smaller index strictly farther — ties to the lowest
index), with y = heightAt of that point + 0.5; heading becomes atan2 of the
vector to the following centerline point (index+1 mod N); both velocities are
zeroed; the pause timer is set to 3.0 s; the wall-hit counter increments by 1;
health is unchanged; and — beyond the original claim's enumeration — the
tracked centerline index is also set to that nearest index.  Nothing else
changes and no position is published. -/
theorem wallReset_frame_spec (M : MathI) (tp : List V3) (cfg : CartCfg)
    (keys : Controls) (posMap : List (String × V3)) (delta : ℚ) (s : CartState)
    (hne : tp ≠ [])
    (hp : s.isPaused = false) (hs : s.isStunned = false)
    (hw : isPositionValid M tp (frameTentativeX M tp cfg keys delta s)
      (frameTentativeZ M tp cfg keys delta s) = false) :
    ((updateCart M tp cfg keys posMap delta s).state =
      { s with
        position := ⟨(closestIdxPt tp s.position.x s.position.z).2.x,
          getTrackHeightAt tp (closestIdxPt tp s.position.x s.position.z).2.x
            (closestIdxPt tp s.position.x s.position.z).2.z + 0.5,
          (closestIdxPt tp s.position.x s.position.z).2.z⟩
        rotation := M.atan2
          ((tp.getD (((closestIdxPt tp s.position.x s.position.z).1 + 1) % tp.length) v3zero).x
            - (closestIdxPt tp s.position.x s.position.z).2.x)
          ((tp.getD (((closestIdxPt tp s.position.x s.position.z).1 + 1) % tp.length) v3zero).z
            - (closestIdxPt tp s.position.x s.position.z).2.z)
        velocity := 0
        angularVelocity := 0
        currentTrackIndex := (closestIdxPt tp s.position.x s.position.z).1
        isPaused := true
        pauseTimeLeft := 3.0
        wallHits := s.wallHits + 1 }) ∧
    (updateCart M tp cfg keys posMap delta s).published = none ∧
    ((closestIdxPt tp s.position.x s.position.z).1 < tp.length ∧
    tp.getD (closestIdxPt tp s.position.x s.position.z).1 v3zero =
      (closestIdxPt tp s.position.x s.position.z).2 ∧
    (∀ j, j < tp.length →
      d2xz (closestIdxPt tp s.position.x s.position.z).2.x
        (closestIdxPt tp s.position.x s.position.z).2.z s.position.x s.position.z ≤
      d2xz (tp.getD j v3zero).x (tp.getD j v3zero).z s.position.x s.position.z) ∧
    (∀ j, j < (closestIdxPt tp s.position.x s.position.z).1 →
      d2xz (closestIdxPt tp s.position.x s.position.z).2.x
        (closestIdxPt tp s.position.x s.position.z).2.z s.position.x s.position.z <
      d2xz (tp.getD j v3zero).x (tp.getD j v3zero).z s.position.x s.position.z)) := by
  refine ⟨?_, ?_, closestIdxPt_spec tp s.position.x s.position.z hne⟩
  · simp [updateCart, resetToTrackCenter, hp, hs, hw]
  · simp [updateCart, hp, hs, hw]

theorem wallReset_frame_witness :
    (updateCart M0 tpSq cfgP noControls [] 1 sWall).state.wallHits = 1 ∧
    (updateCart M0 tpSq cfgP noControls [] 1 sWall).state.isPaused = true := by
  have h := (wallReset_frame_spec M0 tpSq cfgP noControls [] 1 sWall
    (by simp [tpSq]) rfl rfl (by with_unfolding_all decide)).1
  rw [h]
  exact ⟨rfl, rfl⟩

/-- C4 counterexample: at a concrete wall-violating input the frame's resulting
state also changes currentTrackIndex (here from 0 to the nearest index 2), so it
differs from the state predicted by the claim's "and nothing else" enumeration,
which leaves the tracked index untouched. -/
theorem wallReset_claim_cex :
    (updateCart M0 tpSq cfgP noControls [] 1 sWall).state.currentTrackIndex = 2 ∧
    sWall.currentTrackIndex = 0 ∧
    (updateCart M0 tpSq cfgP noControls [] 1 sWall).state ≠
      { sWall with
        position := ⟨20, 1/2, 20⟩
        rotation := 0
        velocity := 0
        angularVelocity := 0
        isPaused := true
        pauseTimeLeft := 3.0
        wallHits := sWall.wallHits + 1 } := by
  with_unfolding_all decide

/-- C5: when the frame passes the boundary check but the cart-collision check
fires, the stored x and z are the previous frame's values (tentative position
discarded), y is re-snapped to heightAt(x, z) + 0.5 at those old coordinates,
and the velocity, angular velocity and heading computed by this frame's
acceleration/friction/turning steps are all retained. -/
theorem collision_discard_spec (M : MathI) (tp : List V3) (cfg : CartCfg)
    (keys : Controls) (posMap : List (String × V3)) (delta : ℚ) (s : CartState)
    (hp : s.isPaused = false) (hs : s.isStunned = false)
    (hv : isPositionValid M tp (frameTentativeX M tp cfg keys delta s)
      (frameTentativeZ M tp cfg keys delta s) = true)
    (hc : (checkCartCollisions cfg.cartId
      ⟨frameTentativeX M tp cfg keys delta s, s.position.y,
        frameTentativeZ M tp cfg keys delta s⟩ posMap).1 = true) :
    (updateCart M tp cfg keys posMap delta s).state.position.x = s.position.x ∧
    (updateCart M tp cfg keys posMap delta s).state.position.z = s.position.z ∧
    (updateCart M tp cfg keys posMap delta s).state.position.y =
      getTrackHeightAt tp s.position.x s.position.z + 0.5 ∧
    (updateCart M tp cfg keys posMap delta s).state.velocity =
      frameVelocity M tp cfg keys delta s ∧
    (updateCart M tp cfg keys posMap delta s).state.angularVelocity =
      frameAngular M tp cfg keys delta s ∧
    (updateCart M tp cfg keys posMap delta s).state.rotation =
      frameRotation M tp cfg keys delta s := by
  simp [updateCart, hp, hs, hv, hc]

theorem collision_discard_witness :
    (updateCart M0 tpSq cfgP noControls posMapC5 1 (initialCart cfgP)).state.position.x = 0 ∧
    (updateCart M0 tpSq cfgP noControls posMapC5 1 (initialCart cfgP)).state.position.z = 0 := by
  have h := collision_discard_spec M0 tpSq cfgP noControls posMapC5 1 (initialCart cfgP)
    rfl rfl (by with_unfolding_all decide) (by with_unfolding_all decide)
  refine ⟨?_, ?_⟩
  · rw [h.1]
    rfl
  · rw [h.2.1]
    rfl

/-- C10: for the player cart, any non-paused, non-stunned frame whose tentative
position passes the boundary check leaves currentTrackIndex unchanged — the AI
advance is skipped for the player, so only the wall-reset (nearest index) or
resetToStart (index 0) paths can move the player's tracked index. -/
theorem player_index_constant_spec (M : MathI) (tp : List V3) (cfg : CartCfg)
    (keys : Controls) (posMap : List (String × V3)) (delta : ℚ) (s : CartState)
    (hpl : cfg.isPlayer = true)
    (hp : s.isPaused = false) (hs : s.isStunned = false)
    (hv : isPositionValid M tp (frameTentativeX M tp cfg keys delta s)
      (frameTentativeZ M tp cfg keys delta s) = true) :
    (updateCart M tp cfg keys posMap delta s).state.currentTrackIndex =
      s.currentTrackIndex := by
  simp [updateCart, hp, hs, hv, frameIndex, hpl]

theorem player_index_constant_witness :
    (updateCart M0 tpSq cfgP noControls [] 1 (initialCart cfgP)).state.currentTrackIndex = 0 := by
  have h := player_index_constant_spec M0 tpSq cfgP noControls [] 1 (initialCart cfgP)
    rfl rfl rfl (by with_unfolding_all decide)
  rw [h]
  rfl

/-- C8 (amended): in each AI steering step, when the squared distance from the
cart to the point at its tracked index is below 3², the stored tracked index
advances by 1 (mod N) but the emitted target is the point at the PRE-advance
tracked index plus floor(lookahead/3) (mod N) — the same expression as in the
no-advance case, because the source re-reads the stale closure value of
currentTrackIndex after the deferred setter; when the distance is 3 or more the
tracked index is unchanged and the target is that same point. -/
theorem aiTarget_spec (M : MathI) (tp : List V3) (cfg : CartCfg) (s : CartState)
    (hpl : cfg.isPlayer = false) :
    (d2xz (tp.getD s.currentTrackIndex v3zero).x (tp.getD s.currentTrackIndex v3zero).z
        s.position.x s.position.z < 3 ^ 2 →
      (getAIControls M tp cfg s).2.1 = (s.currentTrackIndex + 1) % tp.length ∧
      (getAIControls M tp cfg s).2.2 =
        some (tp.getD ((s.currentTrackIndex + lookaheadOf cfg.aiStyle / 3) % tp.length) v3zero)) ∧
    (¬(d2xz (tp.getD s.currentTrackIndex v3zero).x (tp.getD s.currentTrackIndex v3zero).z
        s.position.x s.position.z < 3 ^ 2) →
      (getAIControls M tp cfg s).2.1 = s.currentTrackIndex ∧
      (getAIControls M tp cfg s).2.2 =
        some (tp.getD ((s.currentTrackIndex + lookaheadOf cfg.aiStyle / 3) % tp.length) v3zero)) := by
  constructor <;> intro h <;>
    simp only [List.getD_eq_getElem?_getD] at h <;>
    simp [getAIControls, hpl, h]

theorem aiTarget_witness :
    (getAIControls M0 tp5 cfgA sA).2.1 = 1 := by
  have h := (aiTarget_spec M0 tp5 cfgA sA rfl).1 (by with_unfolding_all decide)
  rw [h.1]
  rfl

/-- C8 counterexample: a fresh AI cart at tracked index 0 standing on
centerline point 0 of a 5-point track advances its index to 1, but the emitted
target is the point at index (0 + 3) mod 5 = 3, not the point at the advanced
index plus floor(lookahead/3), i.e. (1 + 3) mod 5 = 4, refuting the claimed
target formula. -/
theorem aiTarget_claim_cex :
    (getAIControls M0 tp5 cfgA sA).2.1 = 1 ∧
    (getAIControls M0 tp5 cfgA sA).2.2 = some ⟨30, 0, 0⟩ ∧
    (getAIControls M0 tp5 cfgA sA).2.2 ≠
      some (tp5.getD (((getAIControls M0 tp5 cfgA sA).2.1 + lookaheadOf cfgA.aiStyle / 3)
        % tp5.length) v3zero) := by
  with_unfolding_all decide
